import Mathlib

/-!
Shallow embedding of `RenderManagerService`
(src/packages/engine-render/src/render-manager/render-manager.service.ts).

The service is a single-threaded stateful class.  We embed it as a pure
state machine: the mutable fields (`_renderMap`, `_renderDependencies`,
the RxJS subjects, `_currentUnitId`) become fields of `RMState`; every
object-level side effect (a `dispose()` call on a component, scene or
engine, an emission on an event stream, an insertion into the unit
table) is appended to an event `trace`.  Engines, scenes and components
are identified by numeric object ids; `nextId` is the allocator, so a
`new Engine()` / `new Scene(...)` in the source becomes taking `nextId`.
RxJS `Subject.next` after `complete()` is a no-op, which the emission
helpers reproduce via the `streamsCompleted` flag.

External collaborators (not part of this repository's source):
`IUniverInstanceService` is the `Env` record (`getUnit` presence and
`getUnitType`), and `UniverInstanceType` is the enum from the core
package.  The `RenderUnit` class itself is also external; the fields the
manager reads from it (`type`, `engine`, `scene`, `components`,
`mainComponent`, capability lookup) are fields of `IRender`, and its
`addRenderDependencies` is modelled from the spec as appending to the
unit's injected-module list (spec section 4.1, retroactive injection).

`getRenderAll()` in the source returns the internal `Map` object itself
(no copy), so reads through a previously returned value are reads of the
live table.  We model that reference semantics with `renderMapRef` (the
identity of the one `Map` object, never reassigned by the class) and
`readMapRef` (dereferencing a returned reference at a later state).
-/

namespace RenderMgr

/-- Document-type enum from the external core package
(`UniverInstanceType`; `UnitType` is its alias in the source). -/
inductive UniverInstanceType
  | UNIVER_UNKNOWN
  | UNIVER_DOC
  | UNIVER_SHEET
  | UNIVER_SLIDE
deriving DecidableEq

/-- A module descriptor (`Dependency` in the source) is treated as an
opaque identifier: the manager only stores and forwards them. -/
abbrev Dep := Nat

/-- Observable events produced by the manager: object-level `dispose()`
calls, event-stream emissions, and insertions into the unit table. -/
inductive TraceEvent
  | compDispose (objId : Nat)
  | sceneDispose (objId : Nat)
  | selfDispose (unitId : String)
  | engineDispose (objId : Nat)
  | emitDisposed (unitId : String)
  | emitCreated (unitId : String)
  | tableSet (unitId : String)
deriving DecidableEq

/-- The `IRender` record (a `RenderUnit` instance or the thumbnail stub
literal from `_createRender`).  `isRU` records whether the value is an
instance of the `RenderUnit` class (the `instanceof` test in
`_tryAddRenderDependencies`); `hasDispose` records whether the value
passes the `isDisposable` duck-type probe; `injectedDeps` is the list of
module descriptors injected so far (the external
`RenderUnit.addRenderDependencies` state, modelled from the spec). -/
structure IRender where
  unitId : String
  type : UniverInstanceType
  engineId : Nat
  sceneId : Nat
  sceneName : String
  mainComponent : Option Nat
  components : List (String × Nat)
  isMainScene : Bool
  isThumbNail : Bool
  isRU : Bool
  hasDispose : Bool
  injectedDeps : List Dep
deriving DecidableEq

/-- Capability lookup (`with`).  The thumbnail stub's lookup is the
literal in `_createRender` (`with(_dependency) \x7b return null; \x7d`).
For `RenderUnit` instances (class external to src/), modelled from the
spec: the capability set is the set of injected module descriptors. -/
def IRender.withCap (r : IRender) (d : Dep) : Option Dep :=
  if r.isRU then (if d ∈ r.injectedDeps then some d else none) else none

/-- The external document registry (`IUniverInstanceService`):
whether `getUnit(unitId)` returns a model, and `getUnitType(unitId)`. -/
structure Env where
  hasUnit : String → Bool
  unitType : String → UniverInstanceType

/-- The manager's state. -/
structure RMState where
  renderMap : List (String × IRender)
  renderDependencies : List (UniverInstanceType × List Dep)
  trace : List TraceEvent
  streamsCompleted : Bool
  currentCompleted : Bool
  managerDisposed : Bool
  currentUnitId : String
  nextId : Nat
  renderMapRef : Nat
deriving DecidableEq

/-- Fresh manager (constructor state). -/
def initState : RMState :=
  { renderMap := []
    renderDependencies := []
    trace := []
    streamsCompleted := false
    currentCompleted := false
    managerDisposed := false
    currentUnitId := ""
    nextId := 0
    renderMapRef := 0 }

/-- JS `Map.get` on an insertion-ordered association list. -/
def alGet {κ α : Type} [DecidableEq κ] : List (κ × α) → κ → Option α
  | [], _ => none
  | (k', v) :: rest, k => if k' = k then some v else alGet rest k

/-- JS `Map.has`. -/
def alHasKey {κ α : Type} [DecidableEq κ] : List (κ × α) → κ → Bool
  | [], _ => false
  | (k', _) :: rest, k => k' = k || alHasKey rest k

/-- JS `Map.set`: updates in place keeping insertion position, or
appends for a new key. -/
def alSet {κ α : Type} [DecidableEq κ] (m : List (κ × α)) (k : κ) (v : α) : List (κ × α) :=
  if alHasKey m k then m.map (fun p => if p.1 = k then (k, v) else p) else m ++ [(k, v)]

/-- JS `Map.delete`. -/
def alDelete {κ α : Type} [DecidableEq κ] : List (κ × α) → κ → List (κ × α)
  | [], _ => []
  | (k', v) :: rest, k => if k' = k then alDelete rest k else (k', v) :: alDelete rest k

/-- In-place mutation of the value stored for a key (no-op for an
absent key: in the source the disposal-handle closure then mutates an
array no longer reachable from the registry, observably nothing). -/
def alUpdate {κ α : Type} [DecidableEq κ] (m : List (κ × α)) (k : κ) (f : α → α) : List (κ × α) :=
  m.map (fun p => if p.1 = k then (p.1, f p.2) else p)

def SCENE_NAMESPACE : String := "_UNIVER_SCENE_"

/-- `this._renderDisposed$.next(u)`: no-op once the subject completed. -/
def emitRenderDisposed (st : RMState) (u : String) : RMState :=
  if st.streamsCompleted then st
  else { st with trace := st.trace ++ [TraceEvent.emitDisposed u] }

/-- `this._renderCreated$.next(r)`: no-op once the subject completed. -/
def emitRenderCreated (st : RMState) (r : IRender) : RMState :=
  if st.streamsCompleted then st
  else { st with trace := st.trace ++ [TraceEvent.emitCreated r.unitId] }

/-- `RenderManagerService._disposeItem(item, shouldDestroyEngine)`:
dispose every component, dispose the scene, invoke the unit's own
dispose capability if the `isDisposable` probe succeeds, destroy the
engine if asked to, then publish on the disposed stream. -/
def _disposeItem (st : RMState) (item : Option IRender)
    (shouldDestroyEngine : Bool := true) : RMState :=
  match item with
  | none => st
  | some item =>
    let st1 := { st with
      trace := st.trace ++ item.components.map (fun c => TraceEvent.compDispose (Prod.snd c)) }
    let st2 := { st1 with trace := st1.trace ++ [TraceEvent.sceneDispose item.sceneId] }
    let st3 := if item.hasDispose then
        { st2 with trace := st2.trace ++ [TraceEvent.selfDispose item.unitId] }
      else st2
    let st4 := if shouldDestroyEngine then
        { st3 with trace := st3.trace ++ [TraceEvent.engineDispose item.engineId] }
      else st3
    emitRenderDisposed st4 item.unitId

/-- `RenderUnit.addRenderDependencies` guarded by the `instanceof
RenderUnit` test (`_tryAddRenderDependencies`). -/
def _tryAddRenderDependencies (r : IRender) (deps : List Dep) : IRender :=
  if r.isRU then { r with injectedDeps := r.injectedDeps ++ deps } else r

/-- `_getRenderControllersForType`: snapshot of the list for the type. -/
def _getRenderControllersForType (st : RMState) (t : UniverInstanceType) : List Dep :=
  (alGet st.renderDependencies t).getD []

/-- `_addRenderUnit`: the single table insertion. -/
def _addRenderUnit (st : RMState) (unitId : String) (item : IRender) : RMState :=
  { st with
    renderMap := alSet st.renderMap unitId item
    trace := st.trace ++ [TraceEvent.tableSet unitId] }

/-- `addRender` (public): direct insertion, no disposal of a prior entry. -/
def addRender (st : RMState) (unitId : String) (item : IRender) : RMState :=
  _addRenderUnit st unitId item

/-- `RenderManagerService._createRender(unitId, engine, isMainScene)`:
the create-or-replace protocol.  The scene allocation (`new Scene(...)`)
takes a fresh object id.  In the document-model branch the new
`RenderUnit`'s component map starts empty from the manager's viewpoint
(components are attached later by external render controllers), and the
currently registered modules of the unit's type are injected. -/
def _createRender (env : Env) (st : RMState) (unitId : String) (engineId : Nat)
    (isMainScene : Bool := true) : RMState × IRender :=
  let existItem := alGet st.renderMap unitId
  let shouldDestroyEngine :=
    match existItem with
    | some existing => decide (existing.engineId ≠ engineId)
    | none => true
  let st1 := _disposeItem st existItem shouldDestroyEngine
  let sceneId := st1.nextId
  let st2 := { st1 with nextId := st1.nextId + 1 }
  let renderUnit : IRender :=
    if env.hasUnit unitId then
      let t := env.unitType unitId
      let ctors := _getRenderControllersForType st2 t
      _tryAddRenderDependencies
        { unitId := unitId
          type := t
          engineId := engineId
          sceneId := sceneId
          sceneName := SCENE_NAMESPACE ++ unitId
          mainComponent := none
          components := []
          isMainScene := isMainScene
          isThumbNail := false
          isRU := true
          hasDispose := true
          injectedDeps := [] } ctors
    else
      { unitId := unitId
        type := UniverInstanceType.UNIVER_SLIDE
        engineId := engineId
        sceneId := sceneId
        sceneName := SCENE_NAMESPACE ++ unitId
        mainComponent := none
        components := []
        isMainScene := isMainScene
        isThumbNail := true
        isRU := false
        hasDispose := false
        injectedDeps := [] }
  (_addRenderUnit st2 unitId renderUnit, renderUnit)

/-- `createRender(unitId)`: allocate a fresh engine, run the
create-or-replace path, emit the created event, return the unit. -/
def createRender (env : Env) (st : RMState) (unitId : String) : RMState × IRender :=
  let engineId := st.nextId
  let st0 := { st with nextId := st.nextId + 1 }
  let res := _createRender env st0 unitId engineId
  (emitRenderCreated res.1 res.2, res.2)

/-- Step 1 of the create-or-replace protocol in `_createRender`: the
old unit's disposal (with the engine-identity decision), before any
construction.  The unit table is not touched by this step. -/
def replaceStage1 (st : RMState) (u : String) (e : Nat) : RMState :=
  _disposeItem st (alGet st.renderMap u)
    (match alGet st.renderMap u with
     | some existing => decide (existing.engineId ≠ e)
     | none => true)

/-- Step 2: the scene construction (`new Scene(...)` allocates an
object id).  Still no table mutation. -/
def replaceStage2 (st : RMState) (u : String) (e : Nat) : RMState :=
  { replaceStage1 st u e with nextId := (replaceStage1 st u e).nextId + 1 }

/-- The value captured by the disposal handle returned from a module
registration: the type key and the descriptors that were registered. -/
structure DisposeHandle where
  type : UniverInstanceType
  deps : List Dep
deriving DecidableEq

/-- `registerRenderModules(type, deps)`: create the list if absent,
append, inject into every live unit of the type. -/
def registerRenderModules (st : RMState) (t : UniverInstanceType) (deps : List Dep) :
    RMState × DisposeHandle :=
  let rd0 := if alHasKey st.renderDependencies t then st.renderDependencies
             else alSet st.renderDependencies t []
  let dependencies := (alGet rd0 t).getD []
  let rd1 := alSet rd0 t (dependencies ++ deps)
  let rm := st.renderMap.map (fun p =>
    if p.2.type = t then (p.1, _tryAddRenderDependencies p.2 deps) else p)
  ({ st with renderDependencies := rd1, renderMap := rm }, { type := t, deps := deps })

/-- `registerRenderModule(type, ctor)`: the single-descriptor variant. -/
def registerRenderModule (st : RMState) (t : UniverInstanceType) (ctor : Dep) :
    RMState × DisposeHandle :=
  let rd0 := if alHasKey st.renderDependencies t then st.renderDependencies
             else alSet st.renderDependencies t []
  let dependencies := (alGet rd0 t).getD []
  let rd1 := alSet rd0 t (dependencies ++ [ctor])
  let rm := st.renderMap.map (fun p =>
    if p.2.type = t then (p.1, _tryAddRenderDependencies p.2 [ctor]) else p)
  ({ st with renderDependencies := rd1, renderMap := rm }, { type := t, deps := [ctor] })

/-- `remove(arr, item)` from the core utilities: splice out the first
occurrence, if any. -/
def removeFirst : List Dep → Dep → List Dep
  | [], _ => []
  | x :: xs, d => if x = d then xs else x :: removeFirst xs d

/-- Invoking the disposal handle returned by a registration:
`deps.forEach((dep) => remove(dependencies, dep))` on the captured
array, which (while the registry still holds the type) is the
registry's current list for that type. -/
def invokeHandle (st : RMState) (h : DisposeHandle) : RMState :=
  { st with
    renderDependencies :=
      alUpdate st.renderDependencies h.type (fun l => h.deps.foldl removeFirst l) }

/-- `removeRender(unitId)`: dispose the entry if present, then delete
the key. -/
def removeRender (st : RMState) (unitId : String) : RMState :=
  let item := alGet st.renderMap unitId
  let st1 :=
    match item with
    | some it => _disposeItem st (some it)
    | none => st
  { st1 with renderMap := alDelete st1.renderMap unitId }

/-- `has(unitId)`. -/
def has (st : RMState) (unitId : String) : Bool :=
  alHasKey st.renderMap unitId

/-- `getRenderById(unitId)`. -/
def getRenderById (st : RMState) (unitId : String) : Option IRender :=
  alGet st.renderMap unitId

/-- `getRenderAll()` returns `this._renderMap` itself: the result is a
reference to the one internal `Map` object. -/
def getRenderAllRef (st : RMState) : Nat :=
  st.renderMapRef

/-- Dereferencing a `Map` reference at a (possibly later) state: the
class never reassigns `_renderMap`, so the manager's one map object
always holds the current table. -/
def readMapRef (st : RMState) (r : Nat) : Option (List (String × IRender)) :=
  if r = st.renderMapRef then some st.renderMap else none

/-- `getAllRenderersOfType(type)`: linear scan filter in table order. -/
def getAllRenderersOfType (st : RMState) (t : UniverInstanceType) : List IRender :=
  (st.renderMap.filter (fun p => p.2.type = t)).map Prod.snd

/-- `setCurrent(unitId)`. -/
def setCurrent (st : RMState) (unitId : String) : RMState :=
  { st with currentUnitId := unitId }

/-- `getCurrent()`. -/
def getCurrent (st : RMState) : Option IRender :=
  alGet st.renderMap st.currentUnitId

/-- `getFirst()`. -/
def getFirst (st : RMState) : Option IRender :=
  (st.renderMap.map Prod.snd).head?

/-- `dispose()` override: dispose every live unit (engine destruction
included), clear the registry and the table, complete the streams. -/
def dispose (st : RMState) : RMState :=
  let st0 := { st with managerDisposed := true }
  let st1 := st0.renderMap.foldl (fun acc p => _disposeItem acc (some p.2)) st0
  let st2 := { st1 with renderDependencies := [] }
  let st3 := { st2 with renderMap := [] }
  let st4 := { st3 with currentCompleted := true }
  { st4 with streamsCompleted := true }

/-- The exact event sequence `_disposeItem` appends for a unit, as a
function of the destroy-engine flag and the completed flag. -/
def disposalTrace (item : IRender) (shouldDestroyEngine : Bool) (completed : Bool) :
    List TraceEvent :=
  item.components.map (fun c => TraceEvent.compDispose (Prod.snd c))
    ++ [TraceEvent.sceneDispose item.sceneId]
    ++ (if item.hasDispose then [TraceEvent.selfDispose item.unitId] else [])
    ++ (if shouldDestroyEngine then [TraceEvent.engineDispose item.engineId] else [])
    ++ (if completed then [] else [TraceEvent.emitDisposed item.unitId])

/-- Occurrence count of a trace event. -/
def countEvt (e : TraceEvent) : List TraceEvent → Nat
  | [] => 0
  | x :: xs => (if x = e then 1 else 0) + countEvt e xs

/-- Occurrence count of a numeric id / descriptor in a list. -/
def countNat (n : Nat) : List Nat → Nat
  | [] => 0
  | x :: xs => (if x = n then 1 else 0) + countNat n xs

/-- Concatenation of the full disposal traces of a list of units. -/
def flatTraces (completed : Bool) : List IRender → List TraceEvent
  | [] => []
  | i :: rest => disposalTrace i true completed ++ flatTraces completed rest

/-- Concrete document registry: one sheet document named "doc1". -/
def envA : Env :=
  { hasUnit := fun u => u == "doc1"
    unitType := fun _ => UniverInstanceType.UNIVER_SHEET }

/-- Concrete document registry with no documents at all (every
`createRender` yields a thumbnail stub). -/
def envNone : Env :=
  { hasUnit := fun _ => false
    unitType := fun _ => UniverInstanceType.UNIVER_UNKNOWN }

/-! ### Association-list lemmas -/

@[simp] theorem alGet_nil {κ α : Type} [DecidableEq κ] (k : κ) :
    alGet ([] : List (κ × α)) k = none := rfl

@[simp] theorem alGet_cons {κ α : Type} [DecidableEq κ] (k' : κ) (v : α)
    (rest : List (κ × α)) (k : κ) :
    alGet ((k', v) :: rest) k = if k' = k then some v else alGet rest k := rfl

@[simp] theorem alHasKey_nil {κ α : Type} [DecidableEq κ] (k : κ) :
    alHasKey ([] : List (κ × α)) k = false := rfl

@[simp] theorem alHasKey_cons {κ α : Type} [DecidableEq κ] (k' : κ) (v : α)
    (rest : List (κ × α)) (k : κ) :
    alHasKey ((k', v) :: rest) k = (decide (k' = k) || alHasKey rest k) := rfl

theorem alGet_eq_none_of_hasKey_false {κ α : Type} [DecidableEq κ]
    (m : List (κ × α)) (k : κ) (h : alHasKey m k = false) : alGet m k = none := by
  induction m with
  | nil => rfl
  | cons p rest ih =>
    obtain ⟨k', v⟩ := p
    simp only [alHasKey_cons, Bool.or_eq_false_iff, decide_eq_false_iff_not] at h
    simp [alGet_cons, h.1, ih h.2]

theorem alGet_append_right {κ α : Type} [DecidableEq κ]
    (m m' : List (κ × α)) (k : κ) (h : alHasKey m k = false) :
    alGet (m ++ m') k = alGet m' k := by
  induction m with
  | nil => rfl
  | cons p rest ih =>
    obtain ⟨k', v⟩ := p
    simp only [alHasKey_cons, Bool.or_eq_false_iff, decide_eq_false_iff_not] at h
    simp [alGet_cons, h.1, ih h.2]

theorem alGet_mapReplace_self {κ α : Type} [DecidableEq κ]
    (m : List (κ × α)) (k : κ) (v : α) (h : alHasKey m k = true) :
    alGet (m.map (fun p => if p.1 = k then (k, v) else p)) k = some v := by
  induction m with
  | nil => simp at h
  | cons p rest ih =>
    obtain ⟨k', w⟩ := p
    by_cases hk : k' = k
    · simp [alGet_cons, hk]
    · simp only [alHasKey_cons, Bool.or_eq_true_iff, decide_eq_true_eq] at h
      rcases h with h | h
      · exact absurd h hk
      · simp [alGet_cons, hk, ih h]

theorem alGet_alSet_self {κ α : Type} [DecidableEq κ]
    (m : List (κ × α)) (k : κ) (v : α) : alGet (alSet m k v) k = some v := by
  unfold alSet
  by_cases h : alHasKey m k = true
  · simp [h, alGet_mapReplace_self m k v h]
  · simp only [Bool.not_eq_true] at h
    simp [h, alGet_append_right m [(k, v)] k h, alGet_cons]

theorem alGet_mapReplace_other {κ α : Type} [DecidableEq κ]
    (m : List (κ × α)) (k k' : κ) (v : α) (h : k' ≠ k) :
    alGet (m.map (fun p => if p.1 = k then (k, v) else p)) k' = alGet m k' := by
  induction m with
  | nil => rfl
  | cons p rest ih =>
    obtain ⟨k1, w⟩ := p
    by_cases hk : k1 = k
    · subst hk
      have hne : ¬ k1 = k' := fun hh => h (Eq.symm hh)
      simp [alGet_cons, hne, ih]
    · by_cases hk' : k1 = k'
      · simp [alGet_cons, hk, hk', h]
      · simp [alGet_cons, hk, hk', ih]

theorem alGet_append_single_other {κ α : Type} [DecidableEq κ]
    (m : List (κ × α)) (k k' : κ) (v : α) (h : k' ≠ k) :
    alGet (m ++ [(k, v)]) k' = alGet m k' := by
  induction m with
  | nil =>
    have hne : ¬ k = k' := fun hh => h (Eq.symm hh)
    simp [alGet_cons, hne]
  | cons p rest ih =>
    obtain ⟨k1, w⟩ := p
    by_cases hk' : k1 = k'
    · simp [alGet_cons, hk']
    · simp [alGet_cons, hk', ih]

theorem alGet_alSet_other {κ α : Type} [DecidableEq κ]
    (m : List (κ × α)) (k k' : κ) (v : α) (h : k' ≠ k) :
    alGet (alSet m k v) k' = alGet m k' := by
  unfold alSet
  split
  · exact alGet_mapReplace_other m k k' v h
  · exact alGet_append_single_other m k k' v h

theorem alGet_map_keyPreserving {κ α : Type} [DecidableEq κ]
    (m : List (κ × α)) (f : κ × α → κ × α) (g : κ → α → α)
    (hf : ∀ p, f p = (p.1, g p.1 p.2)) (k : κ) :
    alGet (m.map f) k = (alGet m k).map (g k) := by
  induction m with
  | nil => rfl
  | cons p rest ih =>
    obtain ⟨k', v⟩ := p
    rw [List.map_cons, hf]
    by_cases hk : k' = k
    · subst hk
      simp [alGet_cons]
    · simp [alGet_cons, hk, ih]

theorem alGet_some_mem {κ α : Type} [DecidableEq κ]
    (m : List (κ × α)) (k : κ) (v : α) (h : alGet m k = some v) : (k, v) ∈ m := by
  induction m with
  | nil => simp at h
  | cons p rest ih =>
    obtain ⟨k', w⟩ := p
    by_cases hk : k' = k
    · subst hk
      simp [alGet_cons] at h
      simp [h]
    · simp [alGet_cons, hk] at h
      exact List.mem_cons_of_mem _ (ih h)

@[simp] theorem alDelete_nil {κ α : Type} [DecidableEq κ] (k : κ) :
    alDelete ([] : List (κ × α)) k = [] := rfl

theorem alDelete_of_hasKey_false {κ α : Type} [DecidableEq κ]
    (m : List (κ × α)) (k : κ) (h : alHasKey m k = false) : alDelete m k = m := by
  induction m with
  | nil => rfl
  | cons p rest ih =>
    obtain ⟨k', v⟩ := p
    simp only [alHasKey_cons, Bool.or_eq_false_iff, decide_eq_false_iff_not] at h
    simp [alDelete, h.1, ih h.2]

theorem alHasKey_alDelete_self {κ α : Type} [DecidableEq κ]
    (m : List (κ × α)) (k : κ) : alHasKey (alDelete m k) k = false := by
  induction m with
  | nil => rfl
  | cons p rest ih =>
    obtain ⟨k', v⟩ := p
    by_cases hk : k' = k
    · simp [alDelete, hk, ih]
    · simp [alDelete, hk, ih]

theorem alGet_alUpdate_self {κ α : Type} [DecidableEq κ]
    (m : List (κ × α)) (k : κ) (f : α → α) :
    alGet (alUpdate m k f) k = (alGet m k).map f := by
  induction m with
  | nil => rfl
  | cons p rest ih =>
    obtain ⟨k', v⟩ := p
    by_cases hk : k' = k
    · subst hk
      simp [alUpdate, alGet_cons]
    · simp only [alUpdate, List.map_cons] at ih ⊢
      simp [alGet_cons, hk, ih]

theorem alGet_alUpdate_other {κ α : Type} [DecidableEq κ]
    (m : List (κ × α)) (k k' : κ) (f : α → α) (h : k' ≠ k) :
    alGet (alUpdate m k f) k' = alGet m k' := by
  induction m with
  | nil => rfl
  | cons p rest ih =>
    obtain ⟨k1, v⟩ := p
    by_cases hk : k1 = k
    · subst hk
      have hne : ¬ k1 = k' := fun hh => h (Eq.symm hh)
      simp only [alUpdate, List.map_cons] at ih ⊢
      simp [alGet_cons, hne, ih]
    · by_cases hk' : k1 = k'
      · simp [alUpdate, alGet_cons, hk, hk', h]
      · simp only [alUpdate, List.map_cons] at ih ⊢
        simp [alGet_cons, hk, hk', ih]

/-! ### Counting lemmas -/

@[simp] theorem countEvt_nil (e : TraceEvent) : countEvt e [] = 0 := rfl

@[simp] theorem countEvt_cons (e x : TraceEvent) (xs : List TraceEvent) :
    countEvt e (x :: xs) = (if x = e then 1 else 0) + countEvt e xs := rfl

@[simp] theorem countEvt_append (e : TraceEvent) (l1 l2 : List TraceEvent) :
    countEvt e (l1 ++ l2) = countEvt e l1 + countEvt e l2 := by
  induction l1 with
  | nil => simp
  | cons x xs ih => simp [ih]; omega

@[simp] theorem countNat_nil (n : Nat) : countNat n [] = 0 := rfl

@[simp] theorem countNat_cons (n x : Nat) (xs : List Nat) :
    countNat n (x :: xs) = (if x = n then 1 else 0) + countNat n xs := rfl

theorem countEvt_compDispose_map (n : Nat) (l : List (String × Nat)) :
    countEvt (TraceEvent.compDispose n)
      (l.map (fun c => TraceEvent.compDispose (Prod.snd c)))
    = countNat n (l.map Prod.snd) := by
  induction l with
  | nil => rfl
  | cons x xs ih => simp [ih]

theorem countEvt_map_not_comp (e : TraceEvent) (l : List (String × Nat))
    (he : ∀ n, e ≠ TraceEvent.compDispose n) :
    countEvt e (l.map (fun c => TraceEvent.compDispose (Prod.snd c))) = 0 := by
  induction l with
  | nil => rfl
  | cons x xs ih =>
    have hx : ¬ TraceEvent.compDispose x.2 = e := fun h => he x.2 (Eq.symm h)
    simp [ih, hx]

/-! ### Normal forms for the stateful operations -/

@[simp] theorem _disposeItem_none (st : RMState) (b : Bool) :
    _disposeItem st none b = st := rfl

theorem _disposeItem_some (st : RMState) (item : IRender) (b : Bool) :
    _disposeItem st (some item) b
      = { st with trace := st.trace ++ disposalTrace item b st.streamsCompleted } := by
  cases h1 : item.hasDispose <;> cases b <;> cases h3 : st.streamsCompleted <;>
    simp [_disposeItem, emitRenderDisposed, disposalTrace, h1, h3, List.append_assoc]

@[simp] theorem _disposeItem_renderMap (st : RMState) (it : Option IRender) (b : Bool) :
    (_disposeItem st it b).renderMap = st.renderMap := by
  cases it <;> simp [_disposeItem_some]

@[simp] theorem _disposeItem_renderDependencies (st : RMState) (it : Option IRender) (b : Bool) :
    (_disposeItem st it b).renderDependencies = st.renderDependencies := by
  cases it <;> simp [_disposeItem_some]

@[simp] theorem _disposeItem_streamsCompleted (st : RMState) (it : Option IRender) (b : Bool) :
    (_disposeItem st it b).streamsCompleted = st.streamsCompleted := by
  cases it <;> simp [_disposeItem_some]

@[simp] theorem _disposeItem_nextId (st : RMState) (it : Option IRender) (b : Bool) :
    (_disposeItem st it b).nextId = st.nextId := by
  cases it <;> simp [_disposeItem_some]

@[simp] theorem _disposeItem_renderMapRef (st : RMState) (it : Option IRender) (b : Bool) :
    (_disposeItem st it b).renderMapRef = st.renderMapRef := by
  cases it <;> simp [_disposeItem_some]

@[simp] theorem _disposeItem_currentUnitId (st : RMState) (it : Option IRender) (b : Bool) :
    (_disposeItem st it b).currentUnitId = st.currentUnitId := by
  cases it <;> simp [_disposeItem_some]

@[simp] theorem _disposeItem_currentCompleted (st : RMState) (it : Option IRender) (b : Bool) :
    (_disposeItem st it b).currentCompleted = st.currentCompleted := by
  cases it <;> simp [_disposeItem_some]

@[simp] theorem _disposeItem_managerDisposed (st : RMState) (it : Option IRender) (b : Bool) :
    (_disposeItem st it b).managerDisposed = st.managerDisposed := by
  cases it <;> simp [_disposeItem_some]

@[simp] theorem emitRenderCreated_renderMap (st : RMState) (r : IRender) :
    (emitRenderCreated st r).renderMap = st.renderMap := by
  unfold emitRenderCreated; split <;> rfl

@[simp] theorem emitRenderCreated_renderDependencies (st : RMState) (r : IRender) :
    (emitRenderCreated st r).renderDependencies = st.renderDependencies := by
  unfold emitRenderCreated; split <;> rfl

@[simp] theorem emitRenderCreated_streamsCompleted (st : RMState) (r : IRender) :
    (emitRenderCreated st r).streamsCompleted = st.streamsCompleted := by
  unfold emitRenderCreated; split <;> rfl

@[simp] theorem emitRenderCreated_nextId (st : RMState) (r : IRender) :
    (emitRenderCreated st r).nextId = st.nextId := by
  unfold emitRenderCreated; split <;> rfl

@[simp] theorem emitRenderCreated_renderMapRef (st : RMState) (r : IRender) :
    (emitRenderCreated st r).renderMapRef = st.renderMapRef := by
  unfold emitRenderCreated; split <;> rfl

theorem emitRenderCreated_of_completed (st : RMState) (r : IRender)
    (h : st.streamsCompleted = true) : emitRenderCreated st r = st := by
  simp [emitRenderCreated, h]

theorem emitRenderDisposed_of_completed (st : RMState) (u : String)
    (h : st.streamsCompleted = true) : emitRenderDisposed st u = st := by
  simp [emitRenderDisposed, h]

/-- The forEach loop in `dispose()` only appends the units' disposal
traces; the rest of the state is untouched. -/
theorem foldl_disposeItem_eq (l : List (String × IRender)) (st : RMState) :
    l.foldl (fun acc p => _disposeItem acc (some p.2)) st
      = { st with trace := st.trace ++ flatTraces st.streamsCompleted (l.map Prod.snd) } := by
  induction l generalizing st with
  | nil => simp [flatTraces]
  | cons p rest ih =>
    simp only [List.foldl_cons, List.map_cons, flatTraces]
    rw [ih, _disposeItem_some]
    simp [List.append_assoc]

theorem alHasKey_eq_false_of_alGet_none {κ α : Type} [DecidableEq κ]
    (m : List (κ × α)) (k : κ) (h : alGet m k = none) : alHasKey m k = false := by
  induction m with
  | nil => rfl
  | cons p rest ih =>
    obtain ⟨k', v⟩ := p
    by_cases hk : k' = k
    · simp [alGet_cons, hk] at h
    · simp [alGet_cons, hk] at h
      simp [hk, ih h]

theorem alHasKey_of_alGet_some {κ α : Type} [DecidableEq κ]
    (m : List (κ × α)) (k : κ) (v : α) (h : alGet m k = some v) :
    alHasKey m k = true := by
  induction m with
  | nil => simp at h
  | cons p rest ih =>
    obtain ⟨k', w⟩ := p
    by_cases hk : k' = k
    · simp [hk]
    · simp [alGet_cons, hk] at h
      simp [hk, ih h]

theorem alHasKey_alSet_self {κ α : Type} [DecidableEq κ]
    (m : List (κ × α)) (k : κ) (v : α) : alHasKey (alSet m k v) k = true :=
  alHasKey_of_alGet_some _ _ _ (alGet_alSet_self m k v)

/-! ### Counts over a single unit's disposal trace -/

theorem countEvt_disposalTrace_comp (item : IRender) (b c : Bool) (n : Nat) :
    countEvt (TraceEvent.compDispose n) (disposalTrace item b c)
      = countNat n (item.components.map Prod.snd) := by
  unfold disposalTrace
  cases item.hasDispose <;> cases b <;> cases c <;>
    simp [countEvt_compDispose_map]

theorem countEvt_disposalTrace_scene (item : IRender) (b c : Bool) :
    countEvt (TraceEvent.sceneDispose item.sceneId) (disposalTrace item b c) = 1 := by
  have h0 : countEvt (TraceEvent.sceneDispose item.sceneId)
      (item.components.map (fun p => TraceEvent.compDispose (Prod.snd p))) = 0 :=
    countEvt_map_not_comp _ _ (by intro n h; cases h)
  unfold disposalTrace
  cases item.hasDispose <;> cases b <;> cases c <;> simp [h0]

theorem countEvt_disposalTrace_self (item : IRender) (b c : Bool) :
    countEvt (TraceEvent.selfDispose item.unitId) (disposalTrace item b c)
      = (if item.hasDispose then 1 else 0) := by
  have h0 : countEvt (TraceEvent.selfDispose item.unitId)
      (item.components.map (fun p => TraceEvent.compDispose (Prod.snd p))) = 0 :=
    countEvt_map_not_comp _ _ (by intro n h; cases h)
  unfold disposalTrace
  cases item.hasDispose <;> cases b <;> cases c <;> simp [h0]

theorem countEvt_disposalTrace_engine (item : IRender) (b c : Bool) :
    countEvt (TraceEvent.engineDispose item.engineId) (disposalTrace item b c)
      = (if b then 1 else 0) := by
  have h0 : countEvt (TraceEvent.engineDispose item.engineId)
      (item.components.map (fun p => TraceEvent.compDispose (Prod.snd p))) = 0 :=
    countEvt_map_not_comp _ _ (by intro n h; cases h)
  unfold disposalTrace
  cases item.hasDispose <;> cases b <;> cases c <;> simp [h0]

theorem countEvt_disposalTrace_emit (item : IRender) (b c : Bool) :
    countEvt (TraceEvent.emitDisposed item.unitId) (disposalTrace item b c)
      = (if c then 0 else 1) := by
  have h0 : countEvt (TraceEvent.emitDisposed item.unitId)
      (item.components.map (fun p => TraceEvent.compDispose (Prod.snd p))) = 0 :=
    countEvt_map_not_comp _ _ (by intro n h; cases h)
  unfold disposalTrace
  cases item.hasDispose <;> cases b <;> cases c <;> simp [h0]

theorem getLastOfConcat {α : Type} (l : List α) (a : α) :
    (l ++ [a]).getLast? = some a := by
  rw [List.getLast?_append_cons]
  rfl

theorem disposalTrace_getLast (item : IRender) (b : Bool) :
    (disposalTrace item b false).getLast? = some (TraceEvent.emitDisposed item.unitId) := by
  unfold disposalTrace
  simp only [if_neg Bool.false_ne_true, List.append_assoc]
  rw [← List.append_assoc, ← List.append_assoc, ← List.append_assoc]
  exact getLastOfConcat _ _

/-- C3: `removeRender` on a missing id is a silent no-op (no state
change, no disposed event); on a live id it disposes every entry of the
unit's component map exactly once (the main component is one of those
entries and is not disposed separately), then the scene, then the
unit's own dispose capability when it exposes one, then the engine, and
publishes the unit's id on the disposed stream as the last step, after
which the table entry is gone. -/
theorem removeRender_spec (st : RMState) (unitId : String) :
    (getRenderById st unitId = none → removeRender st unitId = st)
    ∧ (∀ item : IRender, getRenderById st unitId = some item →
        (removeRender st unitId).trace
            = st.trace ++ disposalTrace item true st.streamsCompleted
        ∧ (removeRender st unitId).renderMap = alDelete st.renderMap unitId
        ∧ has (removeRender st unitId) unitId = false
        ∧ (∀ n : Nat, countEvt (TraceEvent.compDispose n)
              (disposalTrace item true st.streamsCompleted)
              = countNat n (item.components.map Prod.snd))
        ∧ countEvt (TraceEvent.sceneDispose item.sceneId)
              (disposalTrace item true st.streamsCompleted) = 1
        ∧ countEvt (TraceEvent.selfDispose item.unitId)
              (disposalTrace item true st.streamsCompleted)
              = (if item.hasDispose then 1 else 0)
        ∧ countEvt (TraceEvent.engineDispose item.engineId)
              (disposalTrace item true st.streamsCompleted) = 1
        ∧ countEvt (TraceEvent.emitDisposed item.unitId)
              (disposalTrace item true st.streamsCompleted)
              = (if st.streamsCompleted then 0 else 1)
        ∧ (st.streamsCompleted = false →
            (disposalTrace item true false).getLast?
              = some (TraceEvent.emitDisposed item.unitId))) := by
  constructor
  · intro hnone
    have hnone' : alGet st.renderMap unitId = none := hnone
    have hdel : alDelete st.renderMap unitId = st.renderMap :=
      alDelete_of_hasKey_false _ _ (alHasKey_eq_false_of_alGet_none _ _ hnone')
    simp only [removeRender, hnone', hdel]
  · intro item hsome
    have hsome' : alGet st.renderMap unitId = some item := hsome
    have hrw : removeRender st unitId
        = { st with
            trace := st.trace ++ disposalTrace item true st.streamsCompleted
            renderMap := alDelete st.renderMap unitId } := by
      simp only [removeRender, hsome', _disposeItem_some]
    refine ⟨by rw [hrw], by rw [hrw], ?_,
      countEvt_disposalTrace_comp item true st.streamsCompleted,
      countEvt_disposalTrace_scene item true st.streamsCompleted,
      countEvt_disposalTrace_self item true st.streamsCompleted,
      countEvt_disposalTrace_engine item true st.streamsCompleted,
      countEvt_disposalTrace_emit item true st.streamsCompleted,
      fun _ => disposalTrace_getLast item true⟩
    rw [hrw]
    simp [has, alHasKey_alDelete_self]

/-- C3 witness: from a state holding the unit "doc1", removing it
leaves no entry; removing a missing id from the fresh manager changes
nothing. -/
theorem removeRender_spec_witness :
    has (removeRender (createRender envA initState "doc1").1 "doc1") "doc1" = false
    ∧ removeRender initState "ghost" = initState := by
  constructor
  · exact ((removeRender_spec (createRender envA initState "doc1").1 "doc1").2
      (createRender envA initState "doc1").2 (by decide)).2.2.1
  · exact (removeRender_spec initState "ghost").1 (by decide)

theorem getRenderById_registerRenderModules (st : RMState) (t : UniverInstanceType)
    (deps : List Dep) (u : String) :
    getRenderById (registerRenderModules st t deps).1 u
      = (getRenderById st u).map
          (fun r => if r.type = t then _tryAddRenderDependencies r deps else r) := by
  have hmap : (registerRenderModules st t deps).1.renderMap
      = st.renderMap.map
          (fun p => if p.2.type = t then (p.1, _tryAddRenderDependencies p.2 deps) else p) := rfl
  unfold getRenderById
  rw [hmap]
  exact alGet_map_keyPreserving st.renderMap
    (fun p => if p.2.type = t then (p.1, _tryAddRenderDependencies p.2 deps) else p)
    (fun _ r => if r.type = t then _tryAddRenderDependencies r deps else r)
    (fun p => by by_cases hp : p.2.type = t <;> simp [hp]) u

theorem mem_getAllRenderersOfType (st : RMState) (t : UniverInstanceType) (u : String)
    (r : IRender) (hg : getRenderById st u = some r) (ht : r.type = t) :
    r ∈ getAllRenderersOfType st t := by
  have hm : (u, r) ∈ st.renderMap := alGet_some_mem _ _ _ hg
  unfold getAllRenderersOfType
  exact List.mem_map_of_mem Prod.snd (List.mem_filter.mpr ⟨hm, by simp [ht]⟩)

theorem _createRender_fst_renderMap (env : Env) (st : RMState) (u : String)
    (e : Nat) (ms : Bool) :
    (_createRender env st u e ms).1.renderMap
      = alSet st.renderMap u (_createRender env st u e ms).2 := by
  simp [_createRender, _addRenderUnit]

theorem _createRender_streamsCompleted (env : Env) (st : RMState) (u : String)
    (e : Nat) (ms : Bool) :
    (_createRender env st u e ms).1.streamsCompleted = st.streamsCompleted := by
  simp [_createRender, _addRenderUnit]

theorem _createRender_unitId (env : Env) (st : RMState) (u : String)
    (e : Nat) (ms : Bool) :
    (_createRender env st u e ms).2.unitId = u := by
  by_cases h : env.hasUnit u = true <;>
    simp [_createRender, _tryAddRenderDependencies, h]

theorem emitCreated_not_mem_disposalTrace (u : String) (item : IRender) (b c : Bool) :
    TraceEvent.emitCreated u ∉ disposalTrace item b c := by
  unfold disposalTrace
  cases item.hasDispose <;> cases b <;> cases c <;> simp

theorem _createRender_trace (env : Env) (st : RMState) (u : String)
    (e : Nat) (ms : Bool) :
    ∃ pre : List TraceEvent,
      (_createRender env st u e ms).1.trace = st.trace ++ pre ++ [TraceEvent.tableSet u]
      ∧ TraceEvent.emitCreated u ∉ pre := by
  cases hex : alGet st.renderMap u with
  | none =>
    refine ⟨[], ?_, by simp⟩
    simp [_createRender, _addRenderUnit, hex]
  | some old =>
    refine ⟨disposalTrace old (decide (old.engineId ≠ e)) st.streamsCompleted, ?_,
      emitCreated_not_mem_disposalTrace u old _ _⟩
    simp [_createRender, _addRenderUnit, hex, _disposeItem_some, List.append_assoc]

/-- Worker lemma for the thumbnail-stub claims: all observable facts
about the stub created when the registry lacks a model. -/
theorem thumbStubFacts (env : Env) (st : RMState) (u : String)
    (h : env.hasUnit u = false) :
    (createRender env st u).2.isThumbNail = true
    ∧ (createRender env st u).2.components = []
    ∧ (createRender env st u).2.mainComponent = none
    ∧ (∀ d : Dep, (createRender env st u).2.withCap d = none)
    ∧ (createRender env st u).2.injectedDeps = []
    ∧ getRenderById (createRender env st u).1 u = some (createRender env st u).2
    ∧ (∀ (t : UniverInstanceType) (deps : List Dep),
        getRenderById ((registerRenderModules (createRender env st u).1 t deps).1) u
          = some (createRender env st u).2)
    ∧ (createRender env st u).2.type = UniverInstanceType.UNIVER_SLIDE
    ∧ (createRender env st u).2.isRU = false := by
  have hsnd : (createRender env st u).2
      = { unitId := u
          type := UniverInstanceType.UNIVER_SLIDE
          engineId := st.nextId
          sceneId := st.nextId + 1
          sceneName := SCENE_NAMESPACE ++ u
          mainComponent := none
          components := []
          isMainScene := true
          isThumbNail := true
          isRU := false
          hasDispose := false
          injectedDeps := [] } := by
    simp [createRender, _createRender, h]
  have hget : getRenderById (createRender env st u).1 u = some (createRender env st u).2 := by
    show alGet (createRender env st u).1.renderMap u = _
    have h1 : (createRender env st u).1.renderMap
        = (_createRender env { st with nextId := st.nextId + 1 } u st.nextId).1.renderMap := by
      simp [createRender]
    rw [h1, _createRender_fst_renderMap]
    rw [alGet_alSet_self]
    rfl
  refine ⟨by rw [hsnd], by rw [hsnd], by rw [hsnd], ?_, by rw [hsnd], hget, ?_,
    by rw [hsnd], by rw [hsnd]⟩
  · intro d
    rw [hsnd]
    simp [IRender.withCap]
  · intro t deps
    rw [getRenderById_registerRenderModules, hget]
    have : _tryAddRenderDependencies (createRender env st u).2 deps
        = (createRender env st u).2 := by
      rw [hsnd]
      simp [_tryAddRenderDependencies]
    simp [this]

/-- C5: when the document registry has no model for the unitId,
`createRender` yields the thumbnail stub: `isThumbNail` set, empty
component map, no main component, a capability lookup that is absent for
every dependency identifier, and no module injection — neither at
creation time nor retroactively when modules are later registered for
any type. -/
theorem createRender_thumbnail_stub (env : Env) (st : RMState) (u : String)
    (h : env.hasUnit u = false) :
    (createRender env st u).2.isThumbNail = true
    ∧ (createRender env st u).2.components = []
    ∧ (createRender env st u).2.mainComponent = none
    ∧ (∀ d : Dep, (createRender env st u).2.withCap d = none)
    ∧ (createRender env st u).2.injectedDeps = []
    ∧ getRenderById (createRender env st u).1 u = some (createRender env st u).2
    ∧ (∀ (t : UniverInstanceType) (deps : List Dep),
        getRenderById ((registerRenderModules (createRender env st u).1 t deps).1) u
          = some (createRender env st u).2) := by
  obtain ⟨h1, h2, h3, h4, h5, h6, h7, _, _⟩ := thumbStubFacts env st u h
  exact ⟨h1, h2, h3, h4, h5, h6, h7⟩

/-- C5 witness: creating "thumb1" against an empty document registry
produces a thumbnail stub whose capability lookup is absent. -/
theorem createRender_thumbnail_stub_witness :
    (createRender envNone initState "thumb1").2.isThumbNail = true
    ∧ (createRender envNone initState "thumb1").2.withCap 0 = none :=
  ⟨(createRender_thumbnail_stub envNone initState "thumb1" (by decide)).1,
   (createRender_thumbnail_stub envNone initState "thumb1" (by decide)).2.2.2.1 0⟩

/-- C10: every thumbnail stub carries the `UNIVER_SLIDE` type tag no
matter what unitId was requested, hence it is returned by
`getAllRenderersOfType UNIVER_SLIDE`, and a later module registration
for the slide type iterates over it as a matching unit while the
injection itself is a no-op on it (the entry is unchanged). -/
theorem thumbnail_stub_slide_type (env : Env) (st : RMState) (u : String)
    (h : env.hasUnit u = false) :
    (createRender env st u).2.type = UniverInstanceType.UNIVER_SLIDE
    ∧ (createRender env st u).2
        ∈ getAllRenderersOfType (createRender env st u).1 UniverInstanceType.UNIVER_SLIDE
    ∧ (∀ deps : List Dep,
        _tryAddRenderDependencies (createRender env st u).2 deps = (createRender env st u).2
        ∧ getRenderById
            ((registerRenderModules (createRender env st u).1
                UniverInstanceType.UNIVER_SLIDE deps).1) u
          = some (createRender env st u).2) := by
  obtain ⟨_, _, _, _, _, hget, hreg, htype, hnotRU⟩ := thumbStubFacts env st u h
  refine ⟨htype, mem_getAllRenderersOfType _ _ u _ hget htype, ?_⟩
  intro deps
  exact ⟨by simp [_tryAddRenderDependencies, hnotRU], hreg _ deps⟩

/-- C10 witness: the stub for "thumb2" is tagged as a slide unit and is
listed among the slide renderers. -/
theorem thumbnail_stub_slide_type_witness :
    (createRender envNone initState "thumb2").2.type = UniverInstanceType.UNIVER_SLIDE
    ∧ (createRender envNone initState "thumb2").2
        ∈ getAllRenderersOfType (createRender envNone initState "thumb2").1
            UniverInstanceType.UNIVER_SLIDE :=
  ⟨(thumbnail_stub_slide_type envNone initState "thumb2" (by decide)).1,
   (thumbnail_stub_slide_type envNone initState "thumb2" (by decide)).2.1⟩

/-- C7: in `createRender` the created event is emitted only after
`_addRenderUnit` has inserted the unit: at the emission point the unit
is already present (`has` is true and the lookup returns it), the
emission itself leaves the table unchanged, and in the final trace the
table insertion for the id immediately precedes the created event,
which occurs nowhere earlier. -/
theorem createRender_created_after_insert (env : Env) (st : RMState) (u : String) :
    createRender env st u
      = (emitRenderCreated
           (_createRender env { st with nextId := st.nextId + 1 } u st.nextId).1
           (_createRender env { st with nextId := st.nextId + 1 } u st.nextId).2,
         (_createRender env { st with nextId := st.nextId + 1 } u st.nextId).2)
    ∧ has (_createRender env { st with nextId := st.nextId + 1 } u st.nextId).1 u = true
    ∧ getRenderById (_createRender env { st with nextId := st.nextId + 1 } u st.nextId).1 u
        = some (_createRender env { st with nextId := st.nextId + 1 } u st.nextId).2
    ∧ (createRender env st u).1.renderMap
        = (_createRender env { st with nextId := st.nextId + 1 } u st.nextId).1.renderMap
    ∧ (st.streamsCompleted = false →
        ∃ pre : List TraceEvent,
          (createRender env st u).1.trace
            = st.trace ++ pre ++ [TraceEvent.tableSet u, TraceEvent.emitCreated u]
          ∧ TraceEvent.emitCreated u ∉ pre) := by
  refine ⟨rfl, ?_, ?_, by simp [createRender], ?_⟩
  · unfold has
    rw [_createRender_fst_renderMap]
    exact alHasKey_alSet_self _ _ _
  · unfold getRenderById
    rw [_createRender_fst_renderMap]
    exact alGet_alSet_self _ _ _
  · intro hc
    obtain ⟨pre, hpre, hnot⟩ :=
      _createRender_trace env { st with nextId := st.nextId + 1 } u st.nextId true
    refine ⟨pre, ?_, hnot⟩
    have hcomp : (_createRender env { st with nextId := st.nextId + 1 } u
        st.nextId).1.streamsCompleted = false := by
      rw [_createRender_streamsCompleted]
      exact hc
    have huid := _createRender_unitId env { st with nextId := st.nextId + 1 } u st.nextId true
    show (emitRenderCreated
        (_createRender env { st with nextId := st.nextId + 1 } u st.nextId).1
        (_createRender env { st with nextId := st.nextId + 1 } u st.nextId).2).trace
      = st.trace ++ pre ++ [TraceEvent.tableSet u, TraceEvent.emitCreated u]
    rw [emitRenderCreated, if_neg (by rw [hcomp]; exact Bool.false_ne_true)]
    simp only [hpre, huid]
    simp [List.append_assoc]

/-- C7 witness: a concrete run whose trace ends with the table
insertion followed by the created event. -/
theorem createRender_created_after_insert_witness :
    ∃ pre : List TraceEvent,
      (createRender envA initState "doc1").1.trace
        = initState.trace ++ pre
            ++ [TraceEvent.tableSet "doc1", TraceEvent.emitCreated "doc1"]
      ∧ TraceEvent.emitCreated "doc1" ∉ pre :=
  (createRender_created_after_insert envA initState "doc1").2.2.2.2 (by decide)

/-- C9: the create-or-replace protocol never publishes partial state:
the table is unchanged after step 1 (old unit disposal) and after step
2 (scene construction); the whole protocol equals those steps followed
by one final `_addRenderUnit` of the returned, fully constructed unit;
the only key affected is the requested one, and afterwards it maps to
the returned unit — so every lookup during the protocol sees either the
old table or the completed new unit, never anything in between. -/
theorem createOrReplace_no_partial_state (env : Env) (st : RMState) (u : String)
    (e : Nat) (ms : Bool) :
    (replaceStage1 st u e).renderMap = st.renderMap
    ∧ (replaceStage2 st u e).renderMap = st.renderMap
    ∧ _createRender env st u e ms
        = (_addRenderUnit (replaceStage2 st u e) u (_createRender env st u e ms).2,
           (_createRender env st u e ms).2)
    ∧ (_createRender env st u e ms).1.renderMap
        = alSet st.renderMap u (_createRender env st u e ms).2
    ∧ getRenderById (_createRender env st u e ms).1 u = some (_createRender env st u e ms).2
    ∧ (∀ k : String, k ≠ u →
        getRenderById (_createRender env st u e ms).1 k = getRenderById st k) := by
  refine ⟨by simp [replaceStage1], by simp [replaceStage2, replaceStage1], rfl,
    _createRender_fst_renderMap env st u e ms, ?_, ?_⟩
  · unfold getRenderById
    rw [_createRender_fst_renderMap]
    exact alGet_alSet_self _ _ _
  · intro k hk
    unfold getRenderById
    rw [_createRender_fst_renderMap]
    exact alGet_alSet_other _ _ _ _ hk

/-- C9 witness: replacing "doc1" leaves an unrelated key's lookup
unchanged, and the stages preserve the table. -/
theorem createOrReplace_no_partial_state_witness :
    (replaceStage1 (createRender envA initState "doc1").1 "doc1" 99).renderMap
        = (createRender envA initState "doc1").1.renderMap
    ∧ getRenderById
        (_createRender envA (createRender envA initState "doc1").1 "doc1" 99 true).1 "other"
      = getRenderById (createRender envA initState "doc1").1 "other" :=
  ⟨(createOrReplace_no_partial_state envA (createRender envA initState "doc1").1
      "doc1" 99 true).1,
   (createOrReplace_no_partial_state envA (createRender envA initState "doc1").1
      "doc1" 99 true).2.2.2.2.2 "other" (by decide)⟩

theorem createRender_renderMapRef (env : Env) (st : RMState) (u : String) :
    (createRender env st u).1.renderMapRef = st.renderMapRef := by
  simp [createRender, _createRender, _addRenderUnit]

theorem removeRender_renderMapRef (st : RMState) (u : String) :
    (removeRender st u).renderMapRef = st.renderMapRef := by
  cases hex : alGet st.renderMap u <;> simp [removeRender, hex]

/-- C6 counterexample: the claim "subsequent manager mutations do not
alter a previously returned result" fails at the concrete input where
`getRenderAll` is taken on the fresh manager and `createRender "doc1"`
runs afterwards: the source returns the internal `Map` itself, so the
previously returned result now shows the new entry. -/
theorem getRenderAll_snapshot_counterexample :
    ¬ readMapRef (createRender envA initState "doc1").1 (getRenderAllRef initState)
        = readMapRef initState (getRenderAllRef initState) := by
  decide

/-- C6 amended: `getRenderAll` returns the live table itself (always
the same map object); it holds exactly the units currently in the
table, and subsequent mutations (`createRender`, `removeRender`,
`addRender`) are visible through any previously returned result. -/
theorem getRenderAll_live_table (st : RMState) :
    getRenderAllRef st = st.renderMapRef
    ∧ readMapRef st (getRenderAllRef st) = some st.renderMap
    ∧ (∀ (env : Env) (u : String),
        readMapRef (createRender env st u).1 (getRenderAllRef st)
          = some (createRender env st u).1.renderMap)
    ∧ (∀ u : String,
        readMapRef (removeRender st u) (getRenderAllRef st)
          = some (removeRender st u).renderMap)
    ∧ (∀ (u : String) (item : IRender),
        readMapRef (addRender st u item) (getRenderAllRef st)
          = some (addRender st u item).renderMap) := by
  refine ⟨rfl, by simp [readMapRef, getRenderAllRef], ?_, ?_, ?_⟩
  · intro env u
    simp [readMapRef, getRenderAllRef, createRender_renderMapRef]
  · intro u
    simp [readMapRef, getRenderAllRef, removeRender_renderMapRef]
  · intro u item
    simp [readMapRef, getRenderAllRef, addRender, _addRenderUnit]

theorem dispose_eq (st : RMState) :
    dispose st
      = { st with
          managerDisposed := true
          trace := st.trace ++ flatTraces st.streamsCompleted (st.renderMap.map Prod.snd)
          renderDependencies := []
          renderMap := []
          currentCompleted := true
          streamsCompleted := true } := by
  unfold dispose
  simp only [foldl_disposeItem_eq]

/-- C4: manager teardown is complete and idempotent: one `dispose()`
appends exactly one full disposal protocol (engine destruction
included) per live unit, empties the unit table and the module
registry, completes the lifecycle streams so that further emissions are
no-ops, and a second `dispose()` changes nothing — no further disposals
or events. -/
theorem dispose_teardown (st : RMState) :
    (dispose st).trace
        = st.trace ++ flatTraces st.streamsCompleted (st.renderMap.map Prod.snd)
    ∧ (dispose st).renderMap = []
    ∧ (dispose st).renderDependencies = []
    ∧ (dispose st).streamsCompleted = true
    ∧ (∀ r : IRender, emitRenderCreated (dispose st) r = dispose st)
    ∧ (∀ u : String, emitRenderDisposed (dispose st) u = dispose st)
    ∧ dispose (dispose st) = dispose st := by
  have hcomp : (dispose st).streamsCompleted = true := by rw [dispose_eq]
  refine ⟨by rw [dispose_eq], by rw [dispose_eq], by rw [dispose_eq], hcomp,
    fun r => emitRenderCreated_of_completed _ r hcomp,
    fun u => emitRenderDisposed_of_completed _ u hcomp, ?_⟩
  rw [dispose_eq st]
  rw [dispose_eq]
  simp [flatTraces]

theorem alGet_registerRenderModules_self (st : RMState) (t : UniverInstanceType)
    (deps : List Dep) :
    alGet (registerRenderModules st t deps).1.renderDependencies t
      = some (_getRenderControllersForType st t ++ deps) := by
  have hrD : (registerRenderModules st t deps).1.renderDependencies
      = alSet (if alHasKey st.renderDependencies t then st.renderDependencies
               else alSet st.renderDependencies t [])
          t ((alGet (if alHasKey st.renderDependencies t then st.renderDependencies
                     else alSet st.renderDependencies t []) t).getD [] ++ deps) := rfl
  rw [hrD, alGet_alSet_self]
  by_cases h : alHasKey st.renderDependencies t = true
  · rw [if_pos h]
    rfl
  · have h' : alHasKey st.renderDependencies t = false := by
      simpa using h
    rw [if_neg (by simp [h']), alGet_alSet_self]
    unfold _getRenderControllersForType
    rw [alGet_eq_none_of_hasKey_false _ _ h']
    rfl

theorem depsFor_registerRenderModules (st : RMState) (t : UniverInstanceType)
    (deps : List Dep) :
    _getRenderControllersForType (registerRenderModules st t deps).1 t
      = _getRenderControllersForType st t ++ deps := by
  unfold _getRenderControllersForType
  rw [alGet_registerRenderModules_self]
  rfl

/-- The two registration entry points are the same code up to the
module list being a singleton. -/
theorem registerRenderModule_eq (st : RMState) (t : UniverInstanceType) (ctor : Dep) :
    registerRenderModule st t ctor = registerRenderModules st t [ctor] := rfl

theorem createRender_injectedDeps_full (env : Env) (st : RMState) (u : String)
    (h : env.hasUnit u = true) :
    (createRender env st u).2.injectedDeps
      = _getRenderControllersForType st (env.unitType u) := by
  simp [createRender, _createRender, _tryAddRenderDependencies, h,
    _getRenderControllersForType]

/-- C2: `registerRenderModules(T, deps)` appends the descriptors to T's
ordered list (creating it if absent) and immediately injects them into
every unit currently in the table of type T (so a pre-existing unit
receives them without re-creation), while units of other types are
untouched; a unit created after the registration receives the list at
creation time.  `registerRenderModule` does the same for one
descriptor. -/
theorem registerRenderModules_spec (st : RMState) (t : UniverInstanceType)
    (deps : List Dep) :
    _getRenderControllersForType (registerRenderModules st t deps).1 t
        = _getRenderControllersForType st t ++ deps
    ∧ (registerRenderModules st t deps).1.renderMap
        = st.renderMap.map (fun p =>
            if p.2.type = t then (p.1, _tryAddRenderDependencies p.2 deps) else p)
    ∧ (∀ r : IRender, r.isRU = true →
        (_tryAddRenderDependencies r deps).injectedDeps = r.injectedDeps ++ deps)
    ∧ (∀ (env : Env) (u : String), env.hasUnit u = true → env.unitType u = t →
        (createRender env (registerRenderModules st t deps).1 u).2.injectedDeps
          = _getRenderControllersForType st t ++ deps)
    ∧ (∀ ctor : Dep,
        _getRenderControllersForType (registerRenderModule st t ctor).1 t
            = _getRenderControllersForType st t ++ [ctor]
        ∧ (registerRenderModule st t ctor).1.renderMap
            = st.renderMap.map (fun p =>
                if p.2.type = t then (p.1, _tryAddRenderDependencies p.2 [ctor]) else p)) := by
  refine ⟨depsFor_registerRenderModules st t deps, rfl, ?_, ?_, ?_⟩
  · intro r hr
    simp [_tryAddRenderDependencies, hr]
  · intro env u henv hut
    rw [createRender_injectedDeps_full env _ u henv, hut,
      depsFor_registerRenderModules]
  · intro ctor
    exact ⟨by rw [registerRenderModule_eq, depsFor_registerRenderModules], rfl⟩

/-- C2 witness: registering two modules for the sheet type before
creating "doc1" makes the created unit carry exactly those modules. -/
theorem registerRenderModules_spec_witness :
    (createRender envA
        (registerRenderModules initState UniverInstanceType.UNIVER_SHEET [5, 7]).1
        "doc1").2.injectedDeps
      = _getRenderControllersForType initState UniverInstanceType.UNIVER_SHEET ++ [5, 7] :=
  (registerRenderModules_spec initState UniverInstanceType.UNIVER_SHEET [5, 7]).2.2.2.1
    envA "doc1" (by decide) (by decide)

theorem createRender_engineId (env : Env) (st : RMState) (u : String) :
    (createRender env st u).2.engineId = st.nextId := by
  by_cases h : env.hasUnit u = true <;>
    simp [createRender, _createRender, _tryAddRenderDependencies, h]

theorem createRender_sceneId (env : Env) (st : RMState) (u : String) :
    (createRender env st u).2.sceneId = st.nextId + 1 := by
  by_cases h : env.hasUnit u = true <;>
    simp [createRender, _createRender, _tryAddRenderDependencies, h]

theorem createRender_components_nil (env : Env) (st : RMState) (u : String) :
    (createRender env st u).2.components = [] := by
  by_cases h : env.hasUnit u = true <;>
    simp [createRender, _createRender, _tryAddRenderDependencies, h]

theorem createRender_nextId (env : Env) (st : RMState) (u : String) :
    (createRender env st u).1.nextId = st.nextId + 2 := by
  simp [createRender, _createRender, _addRenderUnit]

theorem createRender_streamsCompleted (env : Env) (st : RMState) (u : String) :
    (createRender env st u).1.streamsCompleted = st.streamsCompleted := by
  simp [createRender, _createRender, _addRenderUnit]

theorem createRender_getRenderById (env : Env) (st : RMState) (u : String) :
    getRenderById (createRender env st u).1 u = some (createRender env st u).2 := by
  unfold getRenderById
  have h1 : (createRender env st u).1.renderMap
      = (_createRender env { st with nextId := st.nextId + 1 } u st.nextId).1.renderMap := by
    simp [createRender]
  rw [h1, _createRender_fst_renderMap]
  exact alGet_alSet_self _ _ _

/-- The trace appended by `_createRender` when the id is free. -/
theorem _createRender_trace_fresh (env : Env) (st : RMState) (u : String)
    (e : Nat) (ms : Bool) (hnone : alGet st.renderMap u = none) :
    (_createRender env st u e ms).1.trace = st.trace ++ [TraceEvent.tableSet u] := by
  simp [_createRender, _addRenderUnit, hnone]

/-- The trace appended by `_createRender` when the id is live: exactly
one disposal protocol for the old unit, then the table overwrite. -/
theorem _createRender_trace_replace (env : Env) (st : RMState) (u : String)
    (e : Nat) (ms : Bool) (old : IRender) (hold : alGet st.renderMap u = some old) :
    (_createRender env st u e ms).1.trace
      = st.trace ++ disposalTrace old (decide (old.engineId ≠ e)) st.streamsCompleted
          ++ [TraceEvent.tableSet u] := by
  simp [_createRender, _addRenderUnit, hold, _disposeItem_some, List.append_assoc]

theorem emitRenderCreated_trace (st : RMState) (r : IRender) :
    (emitRenderCreated st r).trace
      = st.trace
          ++ (if st.streamsCompleted then [] else [TraceEvent.emitCreated r.unitId]) := by
  unfold emitRenderCreated
  cases h : st.streamsCompleted <;> simp [h]

/-- The trace of a whole `createRender` call when the id is free. -/
theorem createRender_trace_fresh (env : Env) (st : RMState) (u : String)
    (hnone : alGet st.renderMap u = none) :
    (createRender env st u).1.trace
      = st.trace ++ [TraceEvent.tableSet u]
          ++ (if st.streamsCompleted then [] else [TraceEvent.emitCreated u]) := by
  have hpre := _createRender_trace_fresh env { st with nextId := st.nextId + 1 } u
    st.nextId true (by simpa using hnone)
  have hcomp := _createRender_streamsCompleted env { st with nextId := st.nextId + 1 } u
    st.nextId true
  have huid := _createRender_unitId env { st with nextId := st.nextId + 1 } u st.nextId true
  show (emitRenderCreated
      (_createRender env { st with nextId := st.nextId + 1 } u st.nextId).1
      (_createRender env { st with nextId := st.nextId + 1 } u st.nextId).2).trace = _
  rw [emitRenderCreated_trace, hpre, hcomp, huid]

/-- The trace of a whole `createRender` call when the id is live. -/
theorem createRender_trace_replace (env : Env) (st : RMState) (u : String)
    (old : IRender) (hold : alGet st.renderMap u = some old) :
    (createRender env st u).1.trace
      = st.trace
          ++ disposalTrace old (decide (old.engineId ≠ st.nextId)) st.streamsCompleted
          ++ [TraceEvent.tableSet u]
          ++ (if st.streamsCompleted then [] else [TraceEvent.emitCreated u]) := by
  have hpre := _createRender_trace_replace env { st with nextId := st.nextId + 1 } u
    st.nextId true old (by simpa using hold)
  have hcomp := _createRender_streamsCompleted env { st with nextId := st.nextId + 1 } u
    st.nextId true
  have huid := _createRender_unitId env { st with nextId := st.nextId + 1 } u st.nextId true
  show (emitRenderCreated
      (_createRender env { st with nextId := st.nextId + 1 } u st.nextId).1
      (_createRender env { st with nextId := st.nextId + 1 } u st.nextId).2).trace = _
  rw [emitRenderCreated_trace, hpre, hcomp, huid]

/-- C1: when the create-or-replace path runs for a unitId with a live
unit, the old unit's disposal protocol runs exactly once — the trace
delta is precisely one disposal sequence for the old unit (each
component entry once, the scene once) followed by the table overwrite —
and the old engine is destroyed iff the supplied engine is not
(reference-)identical to the old unit's engine; in particular, calling
`createRender(id)` twice destroys the first unit's engine and disposes
its scene and component entries exactly once, because `createRender`
always supplies a freshly allocated engine. -/
theorem createOrReplace_disposal_once (env : Env) (st : RMState) (u : String)
    (e : Nat) (ms : Bool) (old : IRender)
    (hold : getRenderById st u = some old) :
    ((_createRender env st u e ms).1.trace
        = st.trace ++ disposalTrace old (decide (old.engineId ≠ e)) st.streamsCompleted
            ++ [TraceEvent.tableSet u])
    ∧ (∀ n : Nat, countEvt (TraceEvent.compDispose n)
          (disposalTrace old (decide (old.engineId ≠ e)) st.streamsCompleted)
          = countNat n (old.components.map Prod.snd))
    ∧ countEvt (TraceEvent.sceneDispose old.sceneId)
          (disposalTrace old (decide (old.engineId ≠ e)) st.streamsCompleted) = 1
    ∧ countEvt (TraceEvent.engineDispose old.engineId)
          (disposalTrace old (decide (old.engineId ≠ e)) st.streamsCompleted)
          = (if old.engineId = e then 0 else 1)
    ∧ (∀ (env2 : Env) (u2 : String),
        countEvt (TraceEvent.engineDispose (createRender env2 initState u2).2.engineId)
            (createRender env2 (createRender env2 initState u2).1 u2).1.trace = 1
        ∧ countEvt (TraceEvent.sceneDispose (createRender env2 initState u2).2.sceneId)
            (createRender env2 (createRender env2 initState u2).1 u2).1.trace = 1
        ∧ (∀ c ∈ (createRender env2 initState u2).2.components,
            countEvt (TraceEvent.compDispose (Prod.snd c))
              (createRender env2 (createRender env2 initState u2).1 u2).1.trace = 1)) := by
  refine ⟨_createRender_trace_replace env st u e ms old hold,
    countEvt_disposalTrace_comp old _ _,
    countEvt_disposalTrace_scene old _ _, ?_, ?_⟩
  · rw [countEvt_disposalTrace_engine old _ _]
    by_cases h : old.engineId = e <;> simp [h]
  · intro env2 u2
    have hold1 : alGet (createRender env2 initState u2).1.renderMap u2
        = some (createRender env2 initState u2).2 :=
      createRender_getRenderById env2 initState u2
    have htr2 := createRender_trace_replace env2 (createRender env2 initState u2).1 u2
      (createRender env2 initState u2).2 hold1
    have htr1 := createRender_trace_fresh env2 initState u2 rfl
    have hn := createRender_nextId env2 initState u2
    have hc1 : (createRender env2 initState u2).1.streamsCompleted = false := by
      rw [createRender_streamsCompleted]
      rfl
    have hflag : (decide ((createRender env2 initState u2).2.engineId
        ≠ (createRender env2 initState u2).1.nextId)) = true := by
      rw [createRender_engineId, hn]
      simp [initState]
    rw [hc1, hflag] at htr2
    have hesc : countEvt (TraceEvent.engineDispose (createRender env2 initState u2).2.engineId)
          (disposalTrace (createRender env2 initState u2).2 true false) = 1 := by
      rw [countEvt_disposalTrace_engine]
      rfl
    have hssc : countEvt (TraceEvent.sceneDispose (createRender env2 initState u2).2.sceneId)
          (disposalTrace (createRender env2 initState u2).2 true false) = 1 :=
      countEvt_disposalTrace_scene _ _ _
    have hz1 : initState.trace = ([] : List TraceEvent) := rfl
    have hz2 : initState.streamsCompleted = false := rfl
    refine ⟨?_, ?_, ?_⟩
    · rw [htr2, htr1]
      simp [hz1, hz2, hesc]
    · rw [htr2, htr1]
      simp [hz1, hz2, hssc]
    · intro c hc
      rw [createRender_components_nil] at hc
      simp at hc

/-- C1 witness: with "doc1" live, replacing it through the
create-or-replace path with a non-identical engine produces exactly one
scene disposal in the old unit's disposal delta, and the concrete
double-`createRender` run destroys the first engine once. -/
theorem createOrReplace_disposal_once_witness :
    countEvt (TraceEvent.sceneDispose (createRender envA initState "doc1").2.sceneId)
        (disposalTrace (createRender envA initState "doc1").2
          (decide ((createRender envA initState "doc1").2.engineId ≠ 99))
          (createRender envA initState "doc1").1.streamsCompleted) = 1
    ∧ countEvt (TraceEvent.engineDispose (createRender envA initState "doc1").2.engineId)
        (createRender envA (createRender envA initState "doc1").1 "doc1").1.trace = 1 :=
  ⟨(createOrReplace_disposal_once envA (createRender envA initState "doc1").1 "doc1" 99 true
      (createRender envA initState "doc1").2 (by decide)).2.2.1,
   ((createOrReplace_disposal_once envA (createRender envA initState "doc1").1 "doc1" 99 true
      (createRender envA initState "doc1").2 (by decide)).2.2.2.2 envA "doc1").1⟩

@[simp] theorem countNat_append (n : Nat) (l1 l2 : List Nat) :
    countNat n (l1 ++ l2) = countNat n l1 + countNat n l2 := by
  induction l1 with
  | nil => simp
  | cons x xs ih => simp [ih]; omega

theorem countNat_pos_iff_mem (x : Dep) (l : List Dep) : 0 < countNat x l ↔ x ∈ l := by
  induction l with
  | nil => simp
  | cons y ys ih =>
    rw [countNat_cons]
    by_cases h : y = x
    · subst h
      simp
    · have hxy : ¬ x = y := fun hh => h (Eq.symm hh)
      simp [h, hxy, ih]

theorem countNat_removeFirst (l : List Dep) (x d : Dep) :
    countNat d (removeFirst l x)
      = countNat d l - (if x = d ∧ x ∈ l then 1 else 0) := by
  induction l with
  | nil => simp [removeFirst]
  | cons y ys ih =>
    simp only [removeFirst]
    by_cases hyx : y = x
    · subst hyx
      rw [if_pos rfl, countNat_cons]
      have hx : y ∈ y :: ys := List.mem_cons_self y ys
      by_cases hyd : y = d
      · subst hyd
        simp [hx]
      · simp [hyd, hx]
    · rw [if_neg hyx, countNat_cons, countNat_cons, ih]
      have hmemiff : (x ∈ y :: ys) ↔ (x ∈ ys) := by
        constructor
        · intro hm
          rcases List.mem_cons.mp hm with h1 | h1
          · exact absurd (Eq.symm h1) hyx
          · exact h1
        · exact fun hm => List.mem_cons_of_mem _ hm
      simp only [hmemiff]
      by_cases hxd : x = d
      · by_cases hmem : x ∈ ys
        · have hpos : 0 < countNat d ys := by
            rw [← hxd]
            exact (countNat_pos_iff_mem x ys).mpr hmem
          rw [if_pos (And.intro hxd hmem)]
          omega
        · rw [if_neg (show ¬ (x = d ∧ x ∈ ys) from fun hh => hmem hh.2)]
          omega
      · rw [if_neg (show ¬ (x = d ∧ x ∈ ys) from fun hh => hxd hh.1)]
        omega

theorem foldl_removeFirst_count (deps : List Dep) :
    ∀ l : List Dep, (∀ a : Dep, countNat a deps ≤ countNat a l) →
      ∀ d : Dep, countNat d (deps.foldl removeFirst l) = countNat d l - countNat d deps := by
  induction deps with
  | nil =>
    intro l _ d
    simp
  | cons x xs ih =>
    intro l hle d
    rw [List.foldl_cons]
    have hxl : x ∈ l := by
      have h1 := hle x
      rw [countNat_cons, if_pos rfl] at h1
      exact (countNat_pos_iff_mem x l).mp (by omega)
    have hpre : ∀ a : Dep, countNat a xs ≤ countNat a (removeFirst l x) := by
      intro a
      rw [countNat_removeFirst]
      have h1 := hle a
      rw [countNat_cons] at h1
      by_cases hxa : x = a
      · subst hxa
        rw [if_pos rfl] at h1
        simp only [hxl, and_self, if_true]
        omega
      · rw [if_neg hxa] at h1
        simp only [hxa, false_and, if_false]
        omega
    rw [ih (removeFirst l x) hpre d, countNat_removeFirst]
    have h1 := hle d
    rw [countNat_cons] at h1
    by_cases hxd : x = d
    · subst hxd
      rw [if_pos rfl] at h1
      have hpos : 0 < countNat x l := (countNat_pos_iff_mem x l).mpr hxl
      simp only [hxl, and_self, if_true, countNat_cons, if_pos rfl]
      omega
    · rw [if_neg hxd] at h1
      simp only [hxd, false_and, if_false, countNat_cons, if_neg hxd]
      omega

theorem removeFirst_append_fresh (base : List Dep) (x : Dep) (rest : List Dep)
    (h : x ∉ base) : removeFirst (base ++ x :: rest) x = base ++ rest := by
  induction base with
  | nil => simp [removeFirst]
  | cons y ys ih =>
    have hyx : ¬ y = x := fun hh => h (hh ▸ List.mem_cons_self y ys)
    have h2 : x ∉ ys := fun hm => h (List.mem_cons_of_mem _ hm)
    simp [removeFirst, hyx, ih h2]

theorem foldl_removeFirst_fresh (deps : List Dep) :
    ∀ base : List Dep, (∀ d ∈ deps, d ∉ base) →
      deps.foldl removeFirst (base ++ deps) = base := by
  induction deps with
  | nil =>
    intro base _
    simp
  | cons x xs ih =>
    intro base h
    rw [List.foldl_cons, removeFirst_append_fresh base x xs (h x (List.mem_cons_self x xs))]
    exact ih base (fun d hd => h d (List.mem_cons_of_mem _ hd))

theorem depsFor_invokeHandle_self (st : RMState) (t : UniverInstanceType)
    (deps cur : List Dep) (hcur : alGet st.renderDependencies t = some cur) :
    _getRenderControllersForType (invokeHandle st { type := t, deps := deps }) t
      = deps.foldl removeFirst cur := by
  unfold _getRenderControllersForType invokeHandle
  rw [alGet_alUpdate_self]
  rw [hcur]
  rfl

theorem depsFor_invokeHandle_other (st : RMState) (t t' : UniverInstanceType)
    (deps : List Dep) (h : t' ≠ t) :
    _getRenderControllersForType (invokeHandle st { type := t, deps := deps }) t'
      = _getRenderControllersForType st t' := by
  unfold _getRenderControllersForType invokeHandle
  rw [alGet_alUpdate_other _ _ _ _ h]

/-- C8: invoking the disposal handle returned by a registration removes
exactly the registered descriptors from the type's list — occurrence
counts return to their pre-registration values, and when the
descriptors were not previously present the list returns to exactly the
prior list — and changes nothing else: the unit table (hence every
already-injected unit) and the event trace are untouched, and other
types' lists are unchanged.  The single-descriptor variant behaves the
same. -/
theorem registerHandle_removes_exactly (st : RMState) (t : UniverInstanceType)
    (deps : List Dep) :
    (∀ d : Dep, countNat d (_getRenderControllersForType
          (invokeHandle (registerRenderModules st t deps).1
            (registerRenderModules st t deps).2) t)
        = countNat d (_getRenderControllersForType st t))
    ∧ ((∀ d ∈ deps, d ∉ _getRenderControllersForType st t) →
        _getRenderControllersForType
            (invokeHandle (registerRenderModules st t deps).1
              (registerRenderModules st t deps).2) t
          = _getRenderControllersForType st t)
    ∧ (invokeHandle (registerRenderModules st t deps).1
          (registerRenderModules st t deps).2).renderMap
        = (registerRenderModules st t deps).1.renderMap
    ∧ (invokeHandle (registerRenderModules st t deps).1
          (registerRenderModules st t deps).2).trace
        = (registerRenderModules st t deps).1.trace
    ∧ (∀ t' : UniverInstanceType, t' ≠ t →
        _getRenderControllersForType
            (invokeHandle (registerRenderModules st t deps).1
              (registerRenderModules st t deps).2) t'
          = _getRenderControllersForType (registerRenderModules st t deps).1 t')
    ∧ (∀ ctor : Dep,
        (∀ d : Dep, countNat d (_getRenderControllersForType
              (invokeHandle (registerRenderModule st t ctor).1
                (registerRenderModule st t ctor).2) t)
            = countNat d (_getRenderControllersForType st t))
        ∧ (invokeHandle (registerRenderModule st t ctor).1
              (registerRenderModule st t ctor).2).renderMap
            = (registerRenderModule st t ctor).1.renderMap) := by
  have hself : ∀ dl : List Dep,
      _getRenderControllersForType
          (invokeHandle (registerRenderModules st t dl).1
            { type := t, deps := dl }) t
        = dl.foldl removeFirst (_getRenderControllersForType st t ++ dl) := by
    intro dl
    exact depsFor_invokeHandle_self _ t dl _ (alGet_registerRenderModules_self st t dl)
  have hcount : ∀ (dl : List Dep) (d : Dep),
      countNat d (dl.foldl removeFirst (_getRenderControllersForType st t ++ dl))
        = countNat d (_getRenderControllersForType st t) := by
    intro dl d
    rw [foldl_removeFirst_count dl (_getRenderControllersForType st t ++ dl)
      (fun a => by rw [countNat_append]; omega) d, countNat_append]
    omega
  have hh1 : (registerRenderModules st t deps).2
      = ({ type := t, deps := deps } : DisposeHandle) := rfl
  refine ⟨?_, ?_, rfl, rfl, ?_, ?_⟩
  · intro d
    rw [hh1, hself deps]
    exact hcount deps d
  · intro hfresh
    rw [hh1, hself deps]
    exact foldl_removeFirst_fresh deps _ hfresh
  · intro t' ht'
    rw [hh1]
    exact depsFor_invokeHandle_other _ t t' deps ht'
  · intro ctor
    refine ⟨?_, rfl⟩
    intro d
    rw [registerRenderModule_eq]
    rw [show (registerRenderModules st t [ctor]).2
        = ({ type := t, deps := [ctor] } : DisposeHandle) from rfl]
    rw [hself [ctor]]
    exact hcount [ctor] d

/-- C8 witness: registering two fresh descriptors for the doc type and
invoking the handle restores the type's (empty) list. -/
theorem registerHandle_removes_exactly_witness :
    _getRenderControllersForType
        (invokeHandle (registerRenderModules initState UniverInstanceType.UNIVER_DOC [3, 4]).1
          (registerRenderModules initState UniverInstanceType.UNIVER_DOC [3, 4]).2)
        UniverInstanceType.UNIVER_DOC
      = _getRenderControllersForType initState UniverInstanceType.UNIVER_DOC :=
  (registerHandle_removes_exactly initState UniverInstanceType.UNIVER_DOC [3, 4]).2.1
    (by decide)

end RenderMgr
